import Mathlib

/-!
Shallow embedding of the real-time drowsiness-detection streaming pipeline
(`api/routes/drowsiness.py`) and the temporal smoother of
`api/models/detection_model.py` (class `DrowsinessDetector`).

Real-valued quantities (scales, box coordinates, timestamps) are modelled
by rationals; Python's `int(...)` on a nonnegative float is modelled by
`Int.toNat ∘ Int.floor`.
-/

namespace DDD

/-- A bounding box `(x1, y1, x2, y2)`, as in the `xyxy` lists of
`_detect_labels_and_boxes`. -/
structure Box where
  x1 : ℚ
  y1 : ℚ
  x2 : ℚ
  y2 : ℚ
deriving DecidableEq, Repr

/-- `_maybe_resize(frame, max_side)` from `routes/drowsiness.py`:
given the frame dimensions `(h, w)`, if `max(h, w) > max_side`, compute
`scale = max_side / max(h, w)`, `new_w = int(w * scale)`,
`new_h = int(h * scale)` and return the resized dimensions together with
`(scale, scale)`; otherwise return the dimensions unchanged with
`(1.0, 1.0)`.  The result is `((h', w'), sx, sy)`. -/
def maybeResize (h w : ℕ) (maxSide : ℕ) : (ℕ × ℕ) × ℚ × ℚ :=
  if max h w > maxSide then
    let scale : ℚ := (maxSide : ℚ) / ((max h w : ℕ) : ℚ)
    let newW : ℕ := (⌊(w : ℚ) * scale⌋).toNat
    let newH : ℕ := (⌊(h : ℚ) * scale⌋).toNat
    ((newH, newW), scale, scale)
  else
    ((h, w), 1, 1)

/-- The box-rescaling step of `_detect_labels_and_boxes`
(`if sx != 1.0 or sy != 1.0: inv = 1.0 / sx; b[i] *= inv`): multiply every
coordinate of every box by `1 / sx` unless both scales are `1.0`. -/
def rescaleBoxes (sx sy : ℚ) (bs : List Box) : List Box :=
  if sx ≠ 1 ∨ sy ≠ 1 then
    let inv := 1 / sx
    bs.map (fun b => ⟨b.x1 * inv, b.y1 * inv, b.x2 * inv, b.y2 * inv⟩)
  else
    bs

/-- Python's substring test `needle in hay` on strings viewed as character
lists: true iff `needle` occurs contiguously inside `hay`. -/
def strContains (hay needle : List Char) : Bool :=
  needle.isPrefixOf hay ||
    match hay with
    | [] => false
    | _ :: t => strContains t needle

/-- The fixed keyword tuple of `_detect_labels_and_boxes`. -/
def drowsyKeywords : List String :=
  ["drowsy", "sleep", "asleep", "closed", "yawn", "tired"]

/-- `text = " ".join(labels).lower()` from `_detect_labels_and_boxes`,
as a character list: join the labels with single spaces and lowercase. -/
def joinedLowerText (labels : List String) : List Char :=
  (((labels.map String.toList).intersperse [' ']).flatten).map Char.toLower

/-- `is_drowsy = any(k in text for k in drowsy_keywords)` from
`_detect_labels_and_boxes`. -/
def isDrowsyLabels (labels : List String) : Bool :=
  drowsyKeywords.any (fun k => strContains (joinedLowerText labels) k.toList)

/-- `ALERT_COOLDOWN_S = float(os.getenv("ESP32_ALERT_COOLDOWN", "2.0"))`:
the default cooldown of 2.0 seconds. -/
def ALERT_COOLDOWN_S : ℚ := 2

/-- The module-level `_last_alert_ts` (initially `0.0`), the timestamp of
the last dispatched ESP32 alert. -/
structure AlertState where
  lastTs : ℚ
deriving DecidableEq, Repr

/-- The initial alert state: `_last_alert_ts = 0.0`. -/
def initAlertState : AlertState := ⟨0⟩

/-- One raw model detection as consumed by `_detect_labels_and_boxes`:
a label string (from `names[int(c)]`), a confidence, and a box in
resized-frame coordinates (from `r.boxes.xyxy`). -/
structure RawDet where
  label : String
  conf : ℚ
  box : Box
deriving DecidableEq, Repr

/-- The JSON dict returned by `_detect_labels_and_boxes` (and, on the
websocket error path, the dict built in the `except` clause, which adds an
`"error"` key).  `error = none` means the key is absent. -/
structure DetectResult where
  error : Option String
  labels : List String
  boxes : List Box
  confs : List ℚ
  drowsy : Bool
deriving DecidableEq, Repr

/-- `_detect_labels_and_boxes(frame)` from `routes/drowsiness.py`, with the
external model call abstracted as input `raw`: `none` models
`r.boxes is None or r.boxes.cls is None` (early return with the empty
result, before the alert code), `some dets` the raw labelled boxes the
model produced on the resized frame.  The frame enters only through its
dimensions `(h0, w0)`.  Also threads the module-level alert state and the
current time through the inlined cooldown-gated `_trigger_esp32` call;
the returned `Bool` reports whether that dispatch happened. -/
def detectLabelsAndBoxes (h0 w0 : ℕ) (raw : Option (List RawDet))
    (st : AlertState) (now : ℚ) : DetectResult × AlertState × Bool :=
  match raw with
  | none => (⟨none, [], [], [], false⟩, st, false)
  | some dets =>
    let sxy := (maybeResize h0 w0 640).2
    let labels := dets.map (fun d => d.label)
    let confs := dets.map (fun d => d.conf)
    let xyxy := rescaleBoxes sxy.1 sxy.2 (dets.map (fun d => d.box))
    let is_drowsy := isDrowsyLabels labels
    if is_drowsy ∧ now - st.lastTs ≥ ALERT_COOLDOWN_S then
      (⟨none, labels, xyxy, confs, is_drowsy⟩, ⟨now⟩, true)
    else
      (⟨none, labels, xyxy, confs, is_drowsy⟩, st, false)

/-- One incoming websocket message of the `ws_infer` loop, with the decode
and the worker call abstracted: `bad` is a byte buffer on which
`cv2.imdecode` returns `None` (malformed or empty), `frame inf` a buffer
that decodes to a frame, where `inf` is what
`anyio.to_thread.run_sync(_detect_labels_and_boxes, frame)` does:
`Except.ok det` a normal result, `Except.error e` a raised exception. -/
inductive WsMsg where
  | bad : WsMsg
  | frame : Except String DetectResult → WsMsg

/-- One outgoing websocket message of `ws_infer`: the
`{"error": "decode_failed"}` dict, or a detection-result dict. -/
inductive WsOut where
  | decodeFailed : WsOut
  | result : DetectResult → WsOut
deriving DecidableEq, Repr

/-- The dict built by the `except` clause of `ws_infer`:
`{"error": str(e), "labels": [], "boxes": [], "confs": [], "drowsy": False}`. -/
def errDet (e : String) : DetectResult := ⟨some e, [], [], [], false⟩

/-- One iteration of the `ws_infer` `while True` loop, given the `busy`
flag and the incoming message: returns the updated `busy` flag and the
message sent to the client, if any.  Mirrors the source order: the decode
check (and its `decode_failed` reply) comes first; only then is `busy`
tested, and a frame arriving while `busy` is dropped with `continue`;
otherwise `busy` is set, the worker runs (exceptions caught into
`errDet`), the result is sent and `busy` is cleared. -/
def wsStep (busy : Bool) (m : WsMsg) : Bool × Option WsOut :=
  match m with
  | .bad => (busy, some .decodeFailed)
  | .frame inf =>
    if busy then
      (busy, none)
    else
      match inf with
      | .ok det => (false, some (.result det))
      | .error e => (false, some (.result (errDet e)))

/-- The `ws_infer` loop run over a whole list of incoming messages,
threading `busy` and collecting the replies in order. -/
def wsRun (busy : Bool) (msgs : List WsMsg) : List WsOut × Bool :=
  match msgs with
  | [] => ([], busy)
  | m :: ms =>
    let s := wsStep busy m
    let rest := wsRun s.1 ms
    (s.2.toList ++ rest.1, rest.2)

/-- The reply a message receives when the session is not busy. -/
def outOf (m : WsMsg) : WsOut :=
  match m with
  | .bad => .decodeFailed
  | .frame (.ok det) => .result det
  | .frame (.error e) => .result (errDet e)

/-- `self.buffer_size = 5` from `DrowsinessDetector.__init__`
(`api/models/detection_model.py`). -/
def bufferSize : ℕ := 5

/-- The temporal-smoothing step of `DrowsinessDetector.detect`
(`api/models/detection_model.py`, the `frame_buffer` code): append the
per-frame verdict, `pop(0)` if the buffer exceeds `buffer_size`, and
return the new buffer together with
`smoothed_drowsy = sum(frame_buffer) >= buffer_size * 0.6`. -/
def pushSmooth (buf : List Bool) (v : Bool) : List Bool × Bool :=
  let b1 := buf ++ [v]
  let b2 := if bufferSize < b1.length then b1.tail else b1
  let cnt := b2.countP (fun x => x)
  (b2, decide (((cnt : ℚ)) ≥ (bufferSize : ℚ) * (6 / 10)))

/-- `pushSmooth` iterated over a list of verdicts; the second component is
the smoothed verdict returned by the last push (`false` if none). -/
def pushMany (buf : List Bool) (vs : List Bool) : List Bool × Bool :=
  vs.foldl (fun acc v => pushSmooth acc.1 v) (buf, false)

/-- A box lies within the frame of height `hgt` and width `wid`:
every coordinate is in `[0, wid]` (x) resp. `[0, hgt]` (y). -/
def boxWithin (b : Box) (hgt wid : ℕ) : Prop :=
  0 ≤ b.x1 ∧ b.x1 ≤ wid ∧ 0 ≤ b.y1 ∧ b.y1 ≤ hgt ∧
  0 ≤ b.x2 ∧ b.x2 ≤ wid ∧ 0 ≤ b.y2 ∧ b.y2 ≤ hgt

/-! ## Helper lemmas -/

theorem strContains_spec (hay needle : List Char) :
    strContains hay needle = true ↔ needle <:+: hay := by
  induction hay with
  | nil => simp [strContains]
  | cons a t ih =>
    rw [strContains]
    simp only [Bool.or_eq_true, ih]
    rw [List.infix_cons_iff]
    simp

theorem wsStep_false (m : WsMsg) : wsStep false m = (false, some (outOf m)) := by
  cases m with
  | bad => rfl
  | frame inf => cases inf <;> rfl

theorem wsRun_false (msgs : List WsMsg) :
    wsRun false msgs = (msgs.map outOf, false) := by
  induction msgs with
  | nil => rfl
  | cons m ms ih => simp [wsRun, wsStep_false, ih]

theorem detect_dispatch_eq (h0 w0 : ℕ) (dets : List RawDet) (st : AlertState) (now : ℚ) :
    (detectLabelsAndBoxes h0 w0 (some dets) st now).2.2
      = (isDrowsyLabels (dets.map (fun d => d.label))
          && decide (now - st.lastTs ≥ ALERT_COOLDOWN_S)) := by
  simp only [detectLabelsAndBoxes]
  split
  · rename_i hc
    simp [hc.1, hc.2]
  · rename_i hc
    rw [not_and_or] at hc
    rcases hc with hc | hc
    · simp [Bool.not_eq_true] at hc
      simp [hc]
    · simp [hc]

theorem detect_state_eq (h0 w0 : ℕ) (dets : List RawDet) (st : AlertState) (now : ℚ) :
    (detectLabelsAndBoxes h0 w0 (some dets) st now).2.1
      = if isDrowsyLabels (dets.map (fun d => d.label)) = true
           ∧ now - st.lastTs ≥ ALERT_COOLDOWN_S
        then ⟨now⟩ else st := by
  simp only [detectLabelsAndBoxes]
  split <;> rfl

theorem detect_result_eq (h0 w0 : ℕ) (dets : List RawDet) (st : AlertState) (now : ℚ) :
    (detectLabelsAndBoxes h0 w0 (some dets) st now).1
      = ⟨none, dets.map (fun d => d.label),
          rescaleBoxes (maybeResize h0 w0 640).2.1 (maybeResize h0 w0 640).2.2
            (dets.map (fun d => d.box)),
          dets.map (fun d => d.conf),
          isDrowsyLabels (dets.map (fun d => d.label))⟩ := by
  simp only [detectLabelsAndBoxes]
  split <;> rfl

theorem toNat_floor_cast (x : ℚ) (hx : 0 ≤ x) :
    ((⌊x⌋.toNat : ℚ)) = ((⌊x⌋ : ℤ) : ℚ) := by
  have h0 : (0 : ℤ) ≤ ⌊x⌋ := Int.floor_nonneg.mpr hx
  exact_mod_cast Int.toNat_of_nonneg h0

theorem toNat_floor_le (x : ℚ) (hx : 0 ≤ x) : ((⌊x⌋.toNat : ℚ)) ≤ x := by
  rw [toNat_floor_cast x hx]
  exact Int.floor_le x

theorem lt_toNat_floor_add_one (x : ℚ) (hx : 0 ≤ x) :
    x < ((⌊x⌋.toNat : ℚ)) + 1 := by
  rw [toNat_floor_cast x hx]
  exact Int.lt_floor_add_one x

theorem toNat_floor_le_nat (x : ℚ) (d : ℕ) (hxd : x ≤ (d : ℚ)) :
    ⌊x⌋.toNat ≤ d := by
  have h1 : ⌊x⌋ ≤ (d : ℤ) := by
    calc ⌊x⌋ ≤ ⌊(d : ℚ)⌋ := Int.floor_le_floor hxd
    _ = (d : ℤ) := Int.floor_natCast d
  omega

theorem toNat_floor_mono (x y : ℚ) (hxy : x ≤ y) :
    ⌊x⌋.toNat ≤ ⌊y⌋.toNat := by
  have h1 : ⌊x⌋ ≤ ⌊y⌋ := Int.floor_le_floor hxy
  omega

theorem maybeResize_pos (h w : ℕ) (hgt : 640 < max h w) :
    maybeResize h w 640
      = (((⌊(h : ℚ) * (640 / ((max h w : ℕ) : ℚ))⌋).toNat,
          (⌊(w : ℚ) * (640 / ((max h w : ℕ) : ℚ))⌋).toNat),
         640 / ((max h w : ℕ) : ℚ), 640 / ((max h w : ℕ) : ℚ)) := by
  rw [maybeResize, if_pos hgt]
  norm_num

theorem maybeResize_neg (h w : ℕ) (hle : ¬ 640 < max h w) :
    maybeResize h w 640 = ((h, w), 1, 1) := by
  rw [maybeResize, if_neg hle]

theorem scaled_le (s : ℚ) (hs : 0 < s) (x : ℚ) (d : ℕ)
    (hx : x ≤ ((⌊(d : ℚ) * s⌋.toNat : ℚ))) : x * (1 / s) ≤ d := by
  have h1 : ((⌊(d : ℚ) * s⌋.toNat : ℚ)) ≤ (d : ℚ) * s :=
    toNat_floor_le _ (by positivity)
  rw [mul_one_div, div_le_iff₀ hs]
  linarith

/-! ## Claim theorems -/

/-- C10: the per-frame drowsiness verdict is a pure function of the label
list: it is true iff the labels, joined into a single lowercase text,
contain at least one of the fixed keywords as a contiguous substring; an
empty label list yields a false verdict. -/
theorem drowsyVerdict_keywordSpec :
    (∀ labels : List String,
      isDrowsyLabels labels = true ↔
        ∃ k ∈ drowsyKeywords,
          ∃ p q, p ++ k.toList ++ q = joinedLowerText labels)
    ∧ isDrowsyLabels [] = false := by
  constructor
  · intro labels
    rw [isDrowsyLabels, List.any_eq_true]
    constructor
    · rintro ⟨k, hk, hc⟩
      exact ⟨k, hk, (strContains_spec _ _).mp hc⟩
    · rintro ⟨k, hk, hc⟩
      exact ⟨k, hk, (strContains_spec _ _).mpr hc⟩
  · decide

/-- C2 (code bug): the drop-on-busy behaviour documented by the code's own
comments ("drop frame if previous inference still running") is never
exercised, because the worker is awaited inline.  Evaluating the session
loop at the failing input — two frame messages back-to-back, the second
arriving while the first frame's classification is in flight — shows the
second frame is not discarded: both frames receive a reply, in order, and
the loop ends with `busy = false`. -/
theorem wsNoDropAtBusy_run :
    wsRun false
      [WsMsg.frame (Except.ok ⟨none, ["alert"], [], [], false⟩),
       WsMsg.frame (Except.ok ⟨none, ["drowsy"], [], [], true⟩)]
      = ([WsOut.result ⟨none, ["alert"], [], [], false⟩,
          WsOut.result ⟨none, ["drowsy"], [], [], true⟩], false) := by
  decide

/-- C3: because the worker is awaited inline within the loop body, a
session that starts with `busy = false` sees `busy = false` at every
iteration; the drop-on-busy branch is never taken, and every message —
in particular every successfully decoded frame — produces exactly one
reply, emitted in arrival order. -/
theorem wsLoop_neverBusy :
    (∀ m : WsMsg, wsStep false m = (false, some (outOf m)))
    ∧ ∀ msgs : List WsMsg, wsRun false msgs = (msgs.map outOf, false) :=
  ⟨wsStep_false, wsRun_false⟩

/-- C9: every per-frame failure is converted into a reply and never ends
the session: a buffer that fails to decode yields the `decode_failed`
reply and the remaining messages are processed as before; an inference
exception yields a result with the error string, empty labels, boxes and
confidences and `drowsy = false`; and every message produces exactly one
reply (nothing propagates across the session boundary). -/
theorem perFrameFailure_isolated :
    (∀ msgs : List WsMsg,
      wsRun false (WsMsg.bad :: msgs)
        = (WsOut.decodeFailed :: (wsRun false msgs).1, (wsRun false msgs).2))
    ∧ (∀ (e : String) (msgs : List WsMsg),
      wsRun false (WsMsg.frame (Except.error e) :: msgs)
        = (WsOut.result ⟨some e, [], [], [], false⟩ :: (wsRun false msgs).1,
           (wsRun false msgs).2))
    ∧ ∀ msgs : List WsMsg, (wsRun false msgs).1.length = msgs.length := by
  refine ⟨?_, ?_, ?_⟩
  · intro msgs
    simp [wsRun, wsStep]
  · intro e msgs
    simp [wsRun, wsStep, errDet]
  · intro msgs
    simp [wsRun_false]

/-- C4: for the smoothing window of capacity 5, pushing `k` true verdicts
followed by `5 - k` false verdicts from an empty buffer yields a final
smoothed verdict that is true iff `k ≥ 3`; and in general each push
appends the verdict, evicts the oldest entry when the window exceeds
capacity, and returns `(count of true entries) ≥ ⌈5 * 0.6⌉`. -/
theorem temporalSmoother_spec :
    (∀ k : ℕ, k ≤ 5 →
      (pushMany [] (List.replicate k true ++ List.replicate (5 - k) false)).2
        = decide (3 ≤ k))
    ∧ ∀ (buf : List Bool) (v : Bool),
        pushSmooth buf v
          = (if bufferSize < (buf ++ [v]).length then (buf ++ [v]).tail else buf ++ [v],
             decide ((((if bufferSize < (buf ++ [v]).length then (buf ++ [v]).tail
                        else buf ++ [v]).countP (fun x => x) : ℤ))
               ≥ ⌈(bufferSize : ℚ) * (6 / 10)⌉)) := by
  constructor
  · intro k hk
    interval_cases k <;>
      norm_num [pushMany, pushSmooth, bufferSize, List.foldl, List.countP,
        List.countP.go, List.replicate]
  · intro buf v
    have hceil : ⌈(bufferSize : ℚ) * (6 / 10)⌉ = 3 := by
      norm_num [bufferSize]
    simp only [pushSmooth, hceil, Prod.mk.injEq]
    refine ⟨trivial, ?_⟩
    rw [decide_eq_decide]
    constructor
    · intro hq
      have h3 : (3 : ℚ) ≤ ((if bufferSize < (buf ++ [v]).length then (buf ++ [v]).tail
          else buf ++ [v]).countP (fun x => x) : ℚ) := by
        calc (3 : ℚ) = (bufferSize : ℚ) * (6 / 10) := by norm_num [bufferSize]
        _ ≤ _ := hq
      exact_mod_cast h3
    · intro hz
      have h3 : (3 : ℚ) ≤ ((if bufferSize < (buf ++ [v]).length then (buf ++ [v]).tail
          else buf ++ [v]).countP (fun x => x) : ℚ) := by
        exact_mod_cast hz
      calc (bufferSize : ℚ) * (6 / 10) = 3 := by norm_num [bufferSize]
      _ ≤ _ := h3

/-- Witness for C4 at `k = 3`. -/
theorem temporalSmoother_spec_witness :
    3 ≤ 5
    ∧ (pushMany [] (List.replicate 3 true ++ List.replicate (5 - 3) false)).2
        = decide (3 ≤ 3) :=
  ⟨by decide, temporalSmoother_spec.1 3 (by decide)⟩

/-- C1 (counterexample): in the streaming pipeline of
`_detect_labels_and_boxes`, the very first processed frame — a single
frame carrying one drowsy detection, starting from the initial alert
state with no verdict history — already dispatches an actuator alert, so
the dispatch is not gated on a smoothed supermajority verdict. -/
theorem singleFrameAlert_counterexample :
    (detectLabelsAndBoxes 480 640
        (some [⟨"drowsy", 9 / 10, ⟨0, 0, 10, 10⟩⟩]) initAlertState 10).2.2
      = true := by
  norm_num [detectLabelsAndBoxes, initAlertState, ALERT_COOLDOWN_S, maybeResize]
  decide

/-- C1 (amended): in the streaming detection pipeline an actuator alert
is dispatched exactly when the current frame's per-frame verdict is
drowsy and the cooldown has elapsed — there is no temporal smoothing on
this path, so a single drowsy-classified frame can by itself cause a
dispatch; when the model returns no boxes, no alert is dispatched. -/
theorem alertDispatch_perFrame (h0 w0 : ℕ) (dets : List RawDet)
    (st : AlertState) (now : ℚ) :
    ((detectLabelsAndBoxes h0 w0 (some dets) st now).2.2
        = (isDrowsyLabels (dets.map (fun d => d.label))
            && decide (now - st.lastTs ≥ ALERT_COOLDOWN_S)))
    ∧ (detectLabelsAndBoxes h0 w0 none st now).2.2 = false :=
  ⟨detect_dispatch_eq h0 w0 dets st now, rfl⟩

/-- C7: box rescaling inverts the scale normalizer's coordinate
transform exactly (in the rational model): a box whose coordinates were
scaled by `s ≠ 0` is mapped back to the original coordinates, and when
both scales are `1.0` the rescaling is the identity. -/
theorem boxRescaler_inverse :
    (∀ s : ℚ, s ≠ 0 → ∀ b : Box,
      rescaleBoxes s s [⟨b.x1 * s, b.y1 * s, b.x2 * s, b.y2 * s⟩] = [b])
    ∧ ∀ bs : List Box, rescaleBoxes 1 1 bs = bs := by
  constructor
  · intro s hs b
    by_cases h1 : s = 1
    · subst h1
      simp [rescaleBoxes]
    · rw [rescaleBoxes, if_pos (Or.inl h1)]
      simp only [List.map_cons, List.map_nil, List.cons.injEq, and_true]
      have hcoord : ∀ x : ℚ, x * s * (1 / s) = x := by
        intro x
        field_simp
      rw [hcoord, hcoord, hcoord, hcoord]
  · intro bs
    simp [rescaleBoxes]

/-- Witness for C7 at `s = 1/2`. -/
theorem boxRescaler_inverse_witness :
    (1 / 2 : ℚ) ≠ 0
    ∧ rescaleBoxes (1 / 2) (1 / 2)
        [⟨1 * (1 / 2), 2 * (1 / 2), 3 * (1 / 2), 4 * (1 / 2)⟩]
        = [⟨1, 2, 3, 4⟩] :=
  ⟨by norm_num, boxRescaler_inverse.1 (1 / 2) (by norm_num) ⟨1, 2, 3, 4⟩⟩

/-- C5: for two detection calls whose frames both carry a drowsy verdict,
with the first call dispatching an alert at time `t1`: the alert
timestamp is set to `t1`; a second call less than the cooldown later
dispatches nothing and leaves the timestamp untouched (exactly one
notification), while a second call at least the cooldown later dispatches
again and moves the timestamp to its own `now`, so the timestamp is
monotonically non-decreasing. -/
theorem alertDispatcher_cooldown (h0 w0 : ℕ) (dets : List RawDet)
    (st : AlertState) (t1 t2 : ℚ) (h12 : t1 ≤ t2)
    (h1 : (detectLabelsAndBoxes h0 w0 (some dets) st t1).2.2 = true) :
    (detectLabelsAndBoxes h0 w0 (some dets) st t1).2.1.lastTs = t1
    ∧ (t2 - t1 < ALERT_COOLDOWN_S →
        (detectLabelsAndBoxes h0 w0 (some dets)
            (detectLabelsAndBoxes h0 w0 (some dets) st t1).2.1 t2).2.2 = false
        ∧ (detectLabelsAndBoxes h0 w0 (some dets)
            (detectLabelsAndBoxes h0 w0 (some dets) st t1).2.1 t2).2.1
          = (detectLabelsAndBoxes h0 w0 (some dets) st t1).2.1)
    ∧ (ALERT_COOLDOWN_S ≤ t2 - t1 →
        (detectLabelsAndBoxes h0 w0 (some dets)
            (detectLabelsAndBoxes h0 w0 (some dets) st t1).2.1 t2).2.2 = true
        ∧ (detectLabelsAndBoxes h0 w0 (some dets)
            (detectLabelsAndBoxes h0 w0 (some dets) st t1).2.1 t2).2.1.lastTs = t2
        ∧ (detectLabelsAndBoxes h0 w0 (some dets) st t1).2.1.lastTs
          ≤ (detectLabelsAndBoxes h0 w0 (some dets)
              (detectLabelsAndBoxes h0 w0 (some dets) st t1).2.1 t2).2.1.lastTs) := by
  have hD := detect_dispatch_eq h0 w0 dets st t1
  rw [h1] at hD
  have hd' := hD.symm
  rw [Bool.and_eq_true, decide_eq_true_eq] at hd'
  obtain ⟨hdr, hcd⟩ := hd'
  have hst1 : (detectLabelsAndBoxes h0 w0 (some dets) st t1).2.1 = ⟨t1⟩ := by
    rw [detect_state_eq, if_pos ⟨hdr, hcd⟩]
  refine ⟨by rw [hst1], ?_, ?_⟩
  · intro hlt
    have hng : ¬(isDrowsyLabels (dets.map (fun d => d.label)) = true
        ∧ t2 - (AlertState.mk t1).lastTs ≥ ALERT_COOLDOWN_S) := by
      rintro ⟨-, hge⟩
      simp only [AlertState.lastTs] at hge
      linarith
    constructor
    · rw [hst1, detect_dispatch_eq, hdr, Bool.true_and, decide_eq_false_iff_not]
      intro hge
      exact hng ⟨hdr, hge⟩
    · rw [hst1, detect_state_eq, if_neg hng]
  · intro hge
    have hpos : isDrowsyLabels (dets.map (fun d => d.label)) = true
        ∧ t2 - (AlertState.mk t1).lastTs ≥ ALERT_COOLDOWN_S := by
      refine ⟨hdr, ?_⟩
      simp only [AlertState.lastTs]
      linarith
    refine ⟨?_, ?_, ?_⟩
    · rw [hst1, detect_dispatch_eq, hdr, Bool.true_and, decide_eq_true_eq]
      exact hpos.2
    · rw [hst1, detect_state_eq, if_pos hpos]
    · rw [hst1, detect_state_eq, if_pos hpos]
      simpa using h12

/-- Witness for C5: first dispatch at `t1 = 5`, second attempt at
`t2 = 6`, inside the cooldown. -/
theorem alertDispatcher_cooldown_witness :
    (5 : ℚ) ≤ 6
    ∧ (detectLabelsAndBoxes 1 1 (some [⟨"drowsy", 1, ⟨0, 0, 1, 1⟩⟩])
        initAlertState 5).2.2 = true
    ∧ (6 : ℚ) - 5 < ALERT_COOLDOWN_S
    ∧ (detectLabelsAndBoxes 1 1 (some [⟨"drowsy", 1, ⟨0, 0, 1, 1⟩⟩])
        (detectLabelsAndBoxes 1 1 (some [⟨"drowsy", 1, ⟨0, 0, 1, 1⟩⟩])
          initAlertState 5).2.1 6).2.2 = false := by
  have hd1 : (detectLabelsAndBoxes 1 1 (some [⟨"drowsy", 1, ⟨0, 0, 1, 1⟩⟩])
      initAlertState 5).2.2 = true := by
    norm_num [detectLabelsAndBoxes, initAlertState, ALERT_COOLDOWN_S, maybeResize]
    decide
  have hlt : (6 : ℚ) - 5 < ALERT_COOLDOWN_S := by
    norm_num [ALERT_COOLDOWN_S]
  exact ⟨by norm_num, hd1, hlt,
    ((alertDispatcher_cooldown 1 1 [⟨"drowsy", 1, ⟨0, 0, 1, 1⟩⟩]
      initAlertState 5 6 (by norm_num) hd1).2.1 hlt).1⟩

/-- C8: if `max(h, w) ≤ 640` the scale normalizer returns the frame
unchanged with scale `1.0` (never upscales); if `max(h, w) > 640` it
returns `scale = 640 / max(h, w)`, the resized longest edge is exactly
`640` (well within the claimed ±1 rounding), neither dimension grows,
and each resized dimension is `dim * scale` rounded down, i.e. within
one unit of exact aspect-ratio preservation. -/
theorem scaleNormalizer_spec (h w : ℕ) :
    (max h w ≤ 640 → maybeResize h w 640 = ((h, w), 1, 1))
    ∧ (640 < max h w →
        (maybeResize h w 640).2.1 = 640 / ((max h w : ℕ) : ℚ)
        ∧ (maybeResize h w 640).2.2 = 640 / ((max h w : ℕ) : ℚ)
        ∧ max (maybeResize h w 640).1.1 (maybeResize h w 640).1.2 = 640
        ∧ (maybeResize h w 640).1.1 ≤ h
        ∧ (maybeResize h w 640).1.2 ≤ w
        ∧ ((maybeResize h w 640).1.2 : ℚ) ≤ (w : ℚ) * (640 / ((max h w : ℕ) : ℚ))
        ∧ (w : ℚ) * (640 / ((max h w : ℕ) : ℚ))
            < ((maybeResize h w 640).1.2 : ℚ) + 1
        ∧ ((maybeResize h w 640).1.1 : ℚ) ≤ (h : ℚ) * (640 / ((max h w : ℕ) : ℚ))
        ∧ (h : ℚ) * (640 / ((max h w : ℕ) : ℚ))
            < ((maybeResize h w 640).1.1 : ℚ) + 1) := by
  constructor
  · intro hle
    rw [maybeResize, if_neg (by omega)]
  · intro hgt
    have hm0 : (0 : ℚ) < ((max h w : ℕ) : ℚ) := by
      have hmp : 0 < max h w := by omega
      exact_mod_cast hmp
    have hs0 : (0 : ℚ) < 640 / ((max h w : ℕ) : ℚ) := by positivity
    have hs1 : 640 / ((max h w : ℕ) : ℚ) ≤ 1 := by
      rw [div_le_one hm0]
      exact_mod_cast le_of_lt hgt
    have hwnn : (0 : ℚ) ≤ (w : ℚ) * (640 / ((max h w : ℕ) : ℚ)) := by positivity
    have hhnn : (0 : ℚ) ≤ (h : ℚ) * (640 / ((max h w : ℕ) : ℚ)) := by positivity
    simp only [maybeResize_pos h w hgt]
    refine ⟨trivial, trivial, ?_, ?_, ?_, ?_, ?_, ?_, ?_⟩
    · rcases le_total h w with hhw | hhw
      · have hmax : max h w = w := max_eq_right hhw
        have hwz : ((w : ℕ) : ℚ) ≠ 0 := by
          have hwp : 0 < w := by omega
          exact_mod_cast hwp.ne'
        have hw640 : (w : ℚ) * (640 / ((max h w : ℕ) : ℚ)) = 640 := by
          rw [hmax]
          field_simp
        have hW : (⌊(w : ℚ) * (640 / ((max h w : ℕ) : ℚ))⌋).toNat = 640 := by
          rw [hw640]
          norm_num
          rfl
        have hmono : (⌊(h : ℚ) * (640 / ((max h w : ℕ) : ℚ))⌋).toNat
            ≤ (⌊(w : ℚ) * (640 / ((max h w : ℕ) : ℚ))⌋).toNat :=
          toNat_floor_mono _ _
            (mul_le_mul_of_nonneg_right (by exact_mod_cast hhw) (le_of_lt hs0))
        rw [max_eq_right hmono, hW]
      · have hmax : max h w = h := max_eq_left hhw
        have hhz : ((h : ℕ) : ℚ) ≠ 0 := by
          have hhp : 0 < h := by omega
          exact_mod_cast hhp.ne'
        have hh640 : (h : ℚ) * (640 / ((max h w : ℕ) : ℚ)) = 640 := by
          rw [hmax]
          field_simp
        have hH : (⌊(h : ℚ) * (640 / ((max h w : ℕ) : ℚ))⌋).toNat = 640 := by
          rw [hh640]
          norm_num
          rfl
        have hmono : (⌊(w : ℚ) * (640 / ((max h w : ℕ) : ℚ))⌋).toNat
            ≤ (⌊(h : ℚ) * (640 / ((max h w : ℕ) : ℚ))⌋).toNat :=
          toNat_floor_mono _ _
            (mul_le_mul_of_nonneg_right (by exact_mod_cast hhw) (le_of_lt hs0))
        rw [max_eq_left hmono, hH]
    · exact toNat_floor_le_nat _ h (mul_le_of_le_one_right (by positivity) hs1)
    · exact toNat_floor_le_nat _ w (mul_le_of_le_one_right (by positivity) hs1)
    · exact toNat_floor_le _ hwnn
    · exact lt_toNat_floor_add_one _ hwnn
    · exact toNat_floor_le _ hhnn
    · exact lt_toNat_floor_add_one _ hhnn

/-- Witness for C8: the small-frame branch at 480×640 and the resize
branch at 480×1280. -/
theorem scaleNormalizer_spec_witness :
    (max 480 640 ≤ 640 ∧ maybeResize 480 640 640 = ((480, 640), 1, 1))
    ∧ (640 < max 480 1280
       ∧ (maybeResize 480 1280 640).2.1 = 640 / ((max 480 1280 : ℕ) : ℚ)
       ∧ max (maybeResize 480 1280 640).1.1 (maybeResize 480 1280 640).1.2
           = 640) :=
  ⟨⟨by decide, (scaleNormalizer_spec 480 640).1 (by decide)⟩,
   ⟨by decide, ((scaleNormalizer_spec 480 1280).2 (by decide)).1,
    ((scaleNormalizer_spec 480 1280).2 (by decide)).2.2.1⟩⟩

/-- C6: if every raw detection box produced by the model lies within the
resized frame, then after rescaling back to original coordinates every
emitted box lies within `[0, original width] × [0, original height]`. -/
theorem boxesWithinBounds (h0 w0 : ℕ) (dets : List RawDet)
    (st : AlertState) (now : ℚ)
    (hb : ∀ d ∈ dets,
      boxWithin d.box (maybeResize h0 w0 640).1.1 (maybeResize h0 w0 640).1.2) :
    ∀ b ∈ (detectLabelsAndBoxes h0 w0 (some dets) st now).1.boxes,
      boxWithin b h0 w0 := by
  intro b hbmem
  rw [detect_result_eq] at hbmem
  by_cases hgt : 640 < max h0 w0
  · have hm0 : (0 : ℚ) < ((max h0 w0 : ℕ) : ℚ) := by
      have hmp : 0 < max h0 w0 := by omega
      exact_mod_cast hmp
    have hs0 : (0 : ℚ) < 640 / ((max h0 w0 : ℕ) : ℚ) := by positivity
    have hslt1 : 640 / ((max h0 w0 : ℕ) : ℚ) < 1 := by
      rw [div_lt_one hm0]
      exact_mod_cast hgt
    rw [maybeResize_pos h0 w0 hgt] at hbmem hb
    simp only at hbmem hb
    rw [rescaleBoxes, if_pos (Or.inl (ne_of_lt hslt1))] at hbmem
    simp only [List.mem_map] at hbmem
    obtain ⟨b0, ⟨d, hdmem, hdeq⟩, hb0eq⟩ := hbmem
    subst hdeq
    have hbox := hb d hdmem
    rw [boxWithin] at hbox
    rw [← hb0eq, boxWithin]
    obtain ⟨h1, h2, h3, h4, h5, h6, h7, h8⟩ := hbox
    refine ⟨?_, ?_, ?_, ?_, ?_, ?_, ?_, ?_⟩
    · exact mul_nonneg h1 (by positivity)
    · exact scaled_le _ hs0 _ _ h2
    · exact mul_nonneg h3 (by positivity)
    · exact scaled_le _ hs0 _ _ h4
    · exact mul_nonneg h5 (by positivity)
    · exact scaled_le _ hs0 _ _ h6
    · exact mul_nonneg h7 (by positivity)
    · exact scaled_le _ hs0 _ _ h8
  · rw [maybeResize_neg h0 w0 hgt] at hbmem hb
    simp only at hbmem hb
    rw [rescaleBoxes, if_neg (by simp)] at hbmem
    simp only [List.mem_map] at hbmem
    obtain ⟨d, hdmem, hdeq⟩ := hbmem
    rw [← hdeq]
    exact hb d hdmem

/-- Witness for C6: a 480×1280 frame resized to 240×640, one in-bounds
raw box, and its rescaled image inside the original frame. -/
theorem boxesWithinBounds_witness :
    boxWithin ⟨0, 0, 640, 240⟩ (maybeResize 480 1280 640).1.1
        (maybeResize 480 1280 640).1.2
    ∧ boxWithin ⟨0, 0, 1280, 480⟩ 480 1280 := by
  have hb : ∀ d ∈ [(⟨"face", 1, ⟨0, 0, 640, 240⟩⟩ : RawDet)],
      boxWithin d.box (maybeResize 480 1280 640).1.1
        (maybeResize 480 1280 640).1.2 := by
    intro d hd
    simp only [List.mem_singleton] at hd
    subst hd
    norm_num [boxWithin, maybeResize]
  have hmem : (⟨0, 0, 1280, 480⟩ : Box)
      ∈ (detectLabelsAndBoxes 480 1280
          (some [⟨"face", 1, ⟨0, 0, 640, 240⟩⟩]) initAlertState 0).1.boxes := by
    rw [detect_result_eq]
    norm_num [maybeResize, rescaleBoxes]
  exact ⟨hb ⟨"face", 1, ⟨0, 0, 640, 240⟩⟩ (by simp),
    boxesWithinBounds 480 1280 [⟨"face", 1, ⟨0, 0, 640, 240⟩⟩]
      initAlertState 0 hb ⟨0, 0, 1280, 480⟩ hmem⟩

end DDD
